import Mathlib

/-!
# Verification of the Magic-Square frontend core

Shallow embedding of the puzzle-definition validator/normalizer, the
grid-state operations, the asynchronous counting-job poll loop, and the
result presenter of the Magic-Square repository (`frontend` React app,
single source file).  JavaScript numbers are modelled as exact rationals
(`ℚ`), with `none : Option ℚ` playing the role of `NaN`; JSON values are
an inductive type; code that `throw`s is modelled with `Except String`.
-/

namespace MagicSquare

/-- Results of fallible code (`throw` in the source) are `Except String`;
equality of results is decidable so that concrete runs can be checked by
`decide`. -/
instance exceptDecEq {ε α : Type} [DecidableEq ε] [DecidableEq α] :
    DecidableEq (Except ε α) := fun x y =>
  match x, y with
  | Except.ok a, Except.ok b =>
      if h : a = b then isTrue (by rw [h])
      else isFalse (fun hc => h (by injection hc))
  | Except.ok _, Except.error _ => isFalse (fun hc => Except.noConfusion hc)
  | Except.error _, Except.ok _ => isFalse (fun hc => Except.noConfusion hc)
  | Except.error e, Except.error f =>
      if h : e = f then isTrue (by rw [h])
      else isFalse (fun hc => h (by injection hc))

/-- A parsed JSON value, as produced by `JSON.parse`.  Numbers are modelled
as exact rationals (the app's inputs are decimal literals).  Object fields
are an association list; `JSON.parse` keeps the last occurrence of a
duplicate key, so field lookup below is last-wins. -/
inductive Json where
  | null : Json
  | bool (b : Bool) : Json
  | num (q : ℚ) : Json
  | str (s : String) : Json
  | arr (elems : List Json) : Json
  | obj (fields : List (String × Json)) : Json

/-- Field access `o.key` on a JSON object: `none` models `undefined`
(absent field).  Last occurrence wins, as in `JSON.parse`. -/
def lookupField (fields : List (String × Json)) (key : String) : Option Json :=
  (fields.reverse.find? (fun p => p.1 = key)).map (fun p => p.2)

/-- The JavaScript nullish-coalescing operator `a ?? b` on possibly-absent
JSON values (`none` = `undefined`). -/
def jsCoalesce (a b : Option Json) : Option Json :=
  match a with
  | none => b
  | some Json.null => b
  | some v => some v

/-- JavaScript whitespace as far as the app's inputs go (ASCII blanks;
`String.prototype.trim` also strips exotic unicode spaces, which no claim
exercises). -/
def isJsWhitespace (c : Char) : Bool :=
  c = ' ' ∨ c = '\t' ∨ c = '\n' ∨ c = '\r' ∨ c = '\x0b' ∨ c = '\x0c'

/-- `s.trim()`, written on the character list so the kernel can evaluate
it (`String.trim` is not kernel-reducible). -/
def jsTrim (s : String) : String :=
  String.mk (((s.data.dropWhile isJsWhitespace).reverse.dropWhile isJsWhitespace).reverse)

/-- Accumulate a decimal digit string into a natural number; `none` when a
non-digit occurs.  The empty list yields `some 0` (callers decide whether
that is allowed). -/
def digitsVal (cs : List Char) : Option Nat :=
  cs.foldl
    (fun acc c => acc.bind (fun n => if c.isDigit then some (10 * n + (c.toNat - 48)) else none))
    (some 0)

/-- `Number(s)` for a string `s`: trims whitespace, `""` coerces to `0`,
otherwise an optional sign followed by a decimal literal (`"12"`, `"3.5"`,
`".5"`, `"5."`).  `none` models `NaN`.  (Hex, exponent and `Infinity`
literals — which the app's JSON inputs do not use — are treated as `NaN`.) -/
def jsStringToNumber (s : String) : Option ℚ :=
  let t := jsTrim s
  if t = "" then some 0
  else
    let cs := t.data
    let signed : Int × List Char :=
      match cs with
      | '-' :: rest => (-1, rest)
      | '+' :: rest => (1, rest)
      | _ => (1, cs)
    let body := signed.2
    match body.span (fun c => c ≠ '.') with
    | (intPart, []) =>
        if intPart.isEmpty then none
        else (digitsVal intPart).map (fun n => Rat.divInt (signed.1 * (n : Int)) 1)
    | (intPart, _dot :: fracPart) =>
        if intPart.isEmpty ∧ fracPart.isEmpty then none
        else
          match digitsVal intPart, digitsVal fracPart with
          | some i, some f =>
              some (Rat.divInt
                (signed.1 * ((i : Int) * ((10 ^ fracPart.length : Nat) : Int) + (f : Int)))
                ((10 ^ fracPart.length : Nat) : Int))
          | _, _ => none

/-- `Number(String(x))` for an element `x` sitting alone inside an array:
array-to-number coercion goes through `Array.prototype.toString`, where
`null` becomes the empty string, booleans become `"true"`/`"false"` (hence
`NaN`), and nested single-element arrays flatten. -/
def arrElemToNumber : Json → Option ℚ
  | Json.null => some 0
  | Json.bool _ => none
  | Json.num q => some q
  | Json.str s => jsStringToNumber s
  | Json.arr [] => some 0
  | Json.arr [x] => arrElemToNumber x
  | Json.arr (_ :: _ :: _) => none
  | Json.obj _ => none

/-- The JavaScript `Number(x)` coercion on a JSON value; `none` models
`NaN`.  Multi-element arrays stringify with commas and objects stringify
as `"[object Object]"`, both `NaN`. -/
def jsToNumber : Json → Option ℚ
  | Json.null => some 0
  | Json.bool b => some (if b then 1 else 0)
  | Json.num q => some q
  | Json.str s => jsStringToNumber s
  | Json.arr [] => some 0
  | Json.arr [x] => arrElemToNumber x
  | Json.arr (_ :: _ :: _) => none
  | Json.obj _ => none

/-- `Number(v)` where `v` may be `undefined` (`none`): `Number(undefined)`
is `NaN`. -/
def jsToNumberU (v : Option Json) : Option ℚ :=
  v.bind jsToNumber

/-- `Number.isInteger` on a (non-`NaN`) modelled number. -/
def jsIsInteger (q : ℚ) : Bool :=
  q.den = 1

/-- Decimal digits of `n`, most significant first, with structural fuel so
that the kernel can evaluate it (`Nat.toDigits` is not kernel-reducible). -/
def natDigits : Nat → Nat → List Char
  | 0, _ => []
  | fuel + 1, n =>
      if n = 0 then []
      else natDigits fuel (n / 10) ++ [Char.ofNat (48 + n % 10)]

/-- Decimal rendering of a natural number, as a JS template literal prints
it. -/
def natToString (n : Nat) : String :=
  if n = 0 then "0" else String.mk (natDigits (n + 1) n)

/-- Decimal rendering of an integer, as a JS template literal prints it. -/
def intToString (i : Int) : String :=
  if i < 0 then "-" ++ natToString i.natAbs else natToString i.natAbs

-- Constants from the source file.
def MIN_SIZE : Nat := 2
def MAX_SIZE : Nat := 7
def GAME_MODES : List String := ["unbounded", "bounded_by_size_squared"]

/-- `createGrid(size, fill)`: a fresh `size × size` matrix filled with
`fill`. -/
def createGrid {α : Type} (size : Nat) (fill : α) : List (List α) :=
  List.replicate size (List.replicate size fill)

/-- The validated puzzle, as returned by `parsePuzzleJson`.  `size` is a
natural number (the validator guarantees `2 ≤ size ≤ 7`); known-grid cells
are `none` for absent. -/
structure PuzzleSpec where
  size : Nat
  target : Int
  gameMode : String
  knownGrid : List (List (Option Int))
  deriving DecidableEq

/-- The per-cell error message of `normalizeKnownGrid` (0-based indices in,
1-based indices in the message). -/
def cellErrMsg (rowIndex colIndex : Nat) : String :=
  "Cell (" ++ natToString (rowIndex + 1) ++ ", " ++ natToString (colIndex + 1) ++
    ") must be an integer >= 1 or null."

/-- The shape error message of `normalizeKnownGrid`. -/
def shapeErrMsg (size : Nat) : String :=
  "known_grid must be a " ++ natToString size ++ "x" ++ natToString size ++ " array."

/-- The test `cell === null || cell === ""` of `normalizeKnownGrid`'s
per-cell coercion. -/
def isAbsentCell : Json → Bool
  | Json.null => true
  | Json.str s => s = ""
  | _ => false

/-- One cell of `normalizeKnownGrid`'s inner `row.map`: `null` or the empty
string is absent; otherwise `Number(cell)` must be an integer `≥ 1`. -/
def normalizeCell (rowIndex colIndex : Nat) (cell : Json) : Except String (Option Int) :=
  if isAbsentCell cell then Except.ok none
  else
    match jsToNumber cell with
    | some q =>
        if jsIsInteger q ∧ 1 ≤ q.num then Except.ok (some q.num)
        else Except.error (cellErrMsg rowIndex colIndex)
    | none => Except.error (cellErrMsg rowIndex colIndex)

/-- The cells of one row of `normalizeKnownGrid`, left to right (the first
bad cell's `throw` aborts the whole map). -/
def normalizeRowCells (rowIndex : Nat) : Nat → List Json → Except String (List (Option Int))
  | _, [] => Except.ok []
  | colIndex, cell :: rest => do
      let v ← normalizeCell rowIndex colIndex cell
      let vs ← normalizeRowCells rowIndex (colIndex + 1) rest
      pure (v :: vs)

/-- The rows of `normalizeKnownGrid`'s outer map: each row must be an array
of exactly `size` cells, then its cells are normalized, top to bottom. -/
def normalizeRows (size : Nat) : Nat → List Json → Except String (List (List (Option Int)))
  | _, [] => Except.ok []
  | rowIndex, row :: rest =>
      match row with
      | Json.arr cells =>
          if cells.length = size then do
            let r ← normalizeRowCells rowIndex 0 cells
            let rs ← normalizeRows size (rowIndex + 1) rest
            pure (r :: rs)
          else Except.error (shapeErrMsg size)
      | _ => Except.error (shapeErrMsg size)

/-- `normalizeKnownGrid(rawGrid, size)`: `undefined` (`none`) or `null`
yields a fresh all-`null` grid; otherwise the value must be an array of
exactly `size` rows, each an array of exactly `size` cells. -/
def normalizeKnownGrid (rawGrid : Option Json) (size : Nat) :
    Except String (List (List (Option Int))) :=
  match rawGrid with
  | none => Except.ok (createGrid size none)
  | some Json.null => Except.ok (createGrid size none)
  | some (Json.arr rows) =>
      if rows.length = size then normalizeRows size 0 rows
      else Except.error (shapeErrMsg size)
  | some _ => Except.error (shapeErrMsg size)

/-- The size-range error message of `parsePuzzleJson`, built from
`MIN_SIZE` and `MAX_SIZE`. -/
def sizeErrMsg : String :=
  "size must be an integer between " ++ natToString MIN_SIZE ++ " and " ++ natToString MAX_SIZE ++ "."

/-- The game-mode error message of `parsePuzzleJson`
(`GAME_MODES.join(", ")`). -/
def gameModeErrMsg : String :=
  "game_mode must be one of: unbounded, bounded_by_size_squared."

/-- The `size` step of `parsePuzzleJson`: `Number(rawData.size)` must be an
integer in `[MIN_SIZE, MAX_SIZE]`. -/
def checkSize (fields : List (String × Json)) : Except String Nat :=
  match jsToNumberU (lookupField fields "size") with
  | some q =>
      if jsIsInteger q ∧ (MIN_SIZE : Int) ≤ q.num ∧ q.num ≤ (MAX_SIZE : Int) then
        Except.ok q.num.toNat
      else Except.error sizeErrMsg
  | none => Except.error sizeErrMsg

/-- The `target` step of `parsePuzzleJson`: `Number(rawData.target)` must
be an integer strictly greater than the parsed size. -/
def checkTarget (fields : List (String × Json)) (parsedSize : Nat) : Except String Int :=
  match jsToNumberU (lookupField fields "target") with
  | some q =>
      if jsIsInteger q ∧ (parsedSize : Int) < q.num then Except.ok q.num
      else Except.error "target must be an integer greater than size."
  | none => Except.error "target must be an integer greater than size."

/-- The `game_mode` step of `parsePuzzleJson`: absent or `null` defaults to
`"unbounded"`; otherwise the value must be one of the two recognized mode
strings (`GAME_MODES.includes`). -/
def checkGameMode (fields : List (String × Json)) : Except String String :=
  match jsCoalesce (lookupField fields "game_mode") (some (Json.str "unbounded")) with
  | some (Json.str s) =>
      if s ∈ GAME_MODES then Except.ok s else Except.error gameModeErrMsg
  | _ => Except.error gameModeErrMsg

/-- `rawData.known_grid ?? rawData.grid`. -/
def rawGridField (fields : List (String × Json)) : Option Json :=
  jsCoalesce (lookupField fields "known_grid") (lookupField fields "grid")

/-- `parsePuzzleJson(rawData)`: the JSON puzzle validator.  Only a
(non-array, non-null) object passes the top-level check; then size, target,
game mode and known grid are validated in that order, the first failure's
message being thrown. -/
def parsePuzzleJson (rawData : Json) : Except String PuzzleSpec :=
  match rawData with
  | Json.obj fields => do
      let parsedSize ← checkSize fields
      let parsedTarget ← checkTarget fields parsedSize
      let parsedGameMode ← checkGameMode fields
      let knownGrid ← normalizeKnownGrid (rawGridField fields) parsedSize
      pure ⟨parsedSize, parsedTarget, parsedGameMode, knownGrid⟩
  | _ => Except.error "Puzzle JSON must be an object."

/-! ## Count-job status snapshots -/

/-- A `CountJobStatus` snapshot as decoded from `GET /count/jobs/{job_id}`.
Optional fields model both `null` and absent (the handlers treat the two
alike via `??` and truthiness checks). -/
structure Snapshot where
  status : String
  lower_bound : Option Int
  elapsed_seconds : Option ℚ
  nodes_visited : Option Int
  exact : Option Bool
  count : Option Int
  estimated_count : Option ℚ
  relative_error : Option ℚ
  mode_used : Option String
  error : Option String
  deriving DecidableEq

/-- The all-absent snapshot, convenient base for building test snapshots. -/
def Snapshot.base : Snapshot :=
  ⟨"", none, none, none, none, none, none, none, none, none⟩

/-- `["completed", "canceled", "failed"].includes(status)`. -/
def isTerminalStatus (status : String) : Bool :=
  status = "completed" ∨ status = "canceled" ∨ status = "failed"

/-! ## Grid state and form-side validation -/

/-- `parseCellValue(value)` on a cell's raw text: blank (after trim) is
absent; otherwise `Number(value)` must be an integer `≥ 1`, else the cell
contributes `null`. -/
def parseCellValue (value : String) : Option Int :=
  if jsTrim value = "" then none
  else
    match jsStringToNumber value with
    | some q => if jsIsInteger q ∧ 1 ≤ q.num then some q.num else none
    | none => none

/-- `Array.prototype.map` with the element index, as used by the source's
`grid.map((row, rowIndex) => ...)` patterns. -/
def mapWithIdx {α β : Type} (f : Nat → α → β) : Nat → List α → List β
  | _, [] => []
  | i, x :: xs => f i x :: mapWithIdx f (i + 1) xs

/-- `g[r][c]` as an optional value: the cell of a matrix at a 0-based row
and column. -/
def cellAt {α : Type} (g : List (List α)) (r c : Nat) : Option α :=
  (g.get? r).bind (fun row => row.get? c)

/-- The React component state fields that the grid-state operations and
request builders read and write.  `target` and `countMaxSeconds` hold a
number or the free text of their input fields, so they are kept as `Json`
values; transient UI state (toast, loading flags) and the poll-loop refs
are modelled separately. -/
structure AppState where
  size : Nat
  target : Json
  gridInput : List (List String)
  userProvided : List (List Bool)
  gameMode : String
  countInfo : Option Snapshot
  runToCompletion : Bool
  countMaxSeconds : Json
  useMultiprocessing : Bool
  workerCount : String

/-- `defaultTargetForSize(size) = size * (size^2 + 1) / 2` (always exact:
`size` and `size^2 + 1` have opposite parity). -/
def defaultTargetForSize (size : Nat) : Nat :=
  size * (size * size + 1) / 2

/-- `handleSizeChange`: fresh empty grid and mask for the new size, target
back to the default, count-mode fields reset.  (`gameMode` is untouched.) -/
def handleSizeChange (s : AppState) (nextSize : Nat) : AppState :=
  { s with
    size := nextSize
    gridInput := createGrid nextSize ""
    userProvided := createGrid nextSize false
    target := Json.num (defaultTargetForSize nextSize)
    countInfo := none
    runToCompletion := false
    useMultiprocessing := false
    workerCount := "" }

/-- `handleClear`: fresh empty grid and mask at the current size,
count-mode fields reset, and `gameMode` reset to `"unbounded"`.
(`target` is untouched.  The `handleCancelCount` call it makes while a
count is running only sends a network request and a toast; it changes none
of these fields.) -/
def handleClear (s : AppState) : AppState :=
  { s with
    gridInput := createGrid s.size ""
    userProvided := createGrid s.size false
    countInfo := none
    runToCompletion := false
    useMultiprocessing := false
    workerCount := ""
    gameMode := "unbounded" }

/-- `userProvided[r][c]`; the two grids are always resized together, so in
every reachable state the mask has the same shape as `gridInput` and the
default is never hit. -/
def maskAt (mask : List (List Bool)) (r c : Nat) : Bool :=
  (((mask.get? r).bind (fun row => row.get? c)).getD false)

/-- The matrix built by `buildKnownGrid(onlyUserProvided)` before its
validity check: cells not marked user-provided are dropped to `null` when
`onlyUserProvided` is set, all others go through `parseCellValue`. -/
def knownGridCells (gridInput : List (List String)) (mask : List (List Bool))
    (onlyUserProvided : Bool) : List (List (Option Int)) :=
  mapWithIdx
    (fun r row =>
      mapWithIdx
        (fun c cell =>
          if onlyUserProvided ∧ ¬ maskAt mask r c then none else parseCellValue cell)
        0 row)
    0 gridInput

/-- `hasInvalidCell` of `buildKnownGrid`: some considered cell has
non-blank text but parsed to `null`.  (The source reads the already-built
matrix, `knownGrid[r][c] === null`; for a considered cell that entry is
exactly `parseCellValue cell`, which is inlined here.) -/
def hasInvalidCell (gridInput : List (List String)) (mask : List (List Bool))
    (onlyUserProvided : Bool) : Bool :=
  (mapWithIdx
      (fun r row =>
        (mapWithIdx
            (fun c cell =>
              if onlyUserProvided ∧ ¬ maskAt mask r c then false
              else jsTrim cell ≠ "" ∧ parseCellValue cell = none)
            0 row).any id)
      0 gridInput).any id

/-- `buildKnownGrid(onlyUserProvided)`: the known-grid matrix sent to the
service, or a thrown error if a considered non-blank cell is not an
integer `≥ 1`. -/
def buildKnownGrid (s : AppState) (onlyUserProvided : Bool) :
    Except String (List (List (Option Int))) :=
  if hasInvalidCell s.gridInput s.userProvided onlyUserProvided then
    Except.error "All filled cells must be integers >= 1."
  else Except.ok (knownGridCells s.gridInput s.userProvided onlyUserProvided)

/-- `validateTarget()`: `Number(target)` must be an integer strictly
greater than the grid size. -/
def validateTarget (s : AppState) : Except String Int :=
  match jsToNumber s.target with
  | some q =>
      if jsIsInteger q then
        if q.num ≤ (s.size : Int) then Except.error "Target must be greater than grid size."
        else Except.ok q.num
      else Except.error "Target must be an integer."
  | none => Except.error "Target must be an integer."

/-- The `known_grid` field of the body of `handleCountSolutions`'s
`POST /count/jobs/start` request: `buildKnownGrid(true)`. -/
def countRequestKnownGrid (s : AppState) : Except String (List (List (Option Int))) :=
  buildKnownGrid s true

/-- The `known_grid` field of the body of `handleSolve`'s `POST /solve`
request: `buildKnownGrid()` (default argument `false`). -/
def solveRequestKnownGrid (s : AppState) : Except String (List (List (Option Int))) :=
  buildKnownGrid s false

/-- One known-grid cell rendered back to JSON for export (absent cells
are `null`). -/
def cellToJson (cell : Option Int) : Json :=
  match cell with
  | none => Json.null
  | some n => Json.num n

/-- One known-grid row rendered back to JSON for export. -/
def rowToJson (row : List (Option Int)) : Json :=
  Json.arr (row.map cellToJson)

/-- A known-grid matrix rendered back to JSON, as in
`handleDownloadPuzzle`'s payload. -/
def knownGridToJson (kg : List (List (Option Int))) : Json :=
  Json.arr (kg.map rowToJson)

/-- The object literal of `handleDownloadPuzzle`'s `payload`, given the
already-validated target and known grid (`JSON.stringify` then
`JSON.parse` of it is the identity on this model). -/
def downloadPayloadObj (s : AppState) (numericTarget : Int)
    (knownGrid : List (List (Option Int))) : Json :=
  Json.obj
    [("size", Json.num s.size),
     ("target", Json.num numericTarget),
     ("game_mode", Json.str s.gameMode),
     ("known_grid", knownGridToJson knownGrid)]

/-- The JSON interchange object written by `handleDownloadPuzzle`, or the
validation error it throws. -/
def downloadPayload (s : AppState) : Except String Json := do
  let numericTarget ← validateTarget s
  let knownGrid ← buildKnownGrid s false
  pure (downloadPayloadObj s numericTarget knownGrid)

/-! ## Result presentation -/

/-- `Math.round(q)`: round half toward positive infinity, i.e.
`⌊q + 1/2⌋`, written on the numerator and denominator directly so the
kernel can evaluate it (`jsMathRound_eq` below certifies the equation). -/
def jsMathRound (q : ℚ) : Int :=
  ⌊Rat.divInt (2 * q.num + (q.den : Int)) (2 * (q.den : Int))⌋

/-- `q * k` for an integer factor, written on the numerator and
denominator directly so the kernel can evaluate it (`ratMulInt_eq` below
certifies the equation). -/
def ratMulInt (q : ℚ) (k : Int) : ℚ :=
  Rat.divInt (q.num * k) (q.den : Int)

/-- Pad a digit string on the left with zeros to length `d`. -/
def padZeros (s : String) (d : Nat) : String :=
  String.mk (List.replicate (d - s.length) '0') ++ s

/-- `q.toFixed(d)`: fixed-point decimal rendering with `d` fractional
digits, rounding half away from zero.  (Models `Number.prototype.toFixed`
on the exact rational value; double-precision artifacts are out of
scope and no claim depends on them.) -/
def jsToFixed (q : ℚ) (d : Nat) : String :=
  let scaled : ℚ := ratMulInt q ((10 ^ d : Nat) : Int)
  let n : Int := if scaled < 0 then -jsMathRound (-scaled) else jsMathRound scaled
  let sign := if n < 0 then "-" else ""
  let m := n.natAbs
  if d = 0 then sign ++ natToString m
  else sign ++ natToString (m / 10 ^ d) ++ "." ++ padZeros (natToString (m % 10 ^ d)) d

/-- Template-literal interpolation of a possibly-`undefined` integer field
(`undefined` prints as the string "undefined"). -/
def showOptInt (v : Option Int) : String :=
  match v with
  | none => "undefined"
  | some n => intToString n

/-- `estimated_count?.toFixed(2) ?? "N/A"`. -/
def estimateText (v : Option ℚ) : String :=
  match v with
  | none => "N/A"
  | some q => jsToFixed q 2

/-- The `± x.x%` suffix built from `relative_error` (empty when the field
is `null`/absent). -/
def errorPctText (v : Option ℚ) : String :=
  match v with
  | none => ""
  | some re => " ± " ++ jsToFixed (ratMulInt re 100) 1 ++ "%"

/-- `renderCountText()`: the pure presenter of the latest `countInfo`
snapshot (the count display under the grid). -/
def renderCountText (countInfo : Option Snapshot) : String :=
  match countInfo with
  | none => "Solution count will appear here."
  | some ci =>
      if ci.status = "running" ∨ ci.status = "canceling" ∨ ci.status = "queued" then
        "Status: " ++ ci.status ++ ". Lower bound so far: " ++ intToString (ci.lower_bound.getD 0) ++
          ". Elapsed: " ++ intToString (jsMathRound (ci.elapsed_seconds.getD 0)) ++
          "s. Nodes visited: " ++ intToString (ci.nodes_visited.getD 0) ++ "."
      else if ci.exact.getD false then
        "Exact solutions: " ++ showOptInt ci.count ++ "."
      else if ci.mode_used = some "auto" then
        "Lower bound: " ++ intToString (ci.lower_bound.getD 0) ++ ". Estimated solutions: " ++
          estimateText ci.estimated_count ++ errorPctText ci.relative_error ++ "."
      else if ci.mode_used = some "estimate" then
        "Estimated solutions: " ++ estimateText ci.estimated_count ++
          errorPctText ci.relative_error ++ "."
      else
        "Lower bound: " ++ intToString (ci.lower_bound.getD 0) ++ "."

/-- A toast notice: its style kind (`success`/`info`/`error`) and message. -/
structure Toast where
  kind : String
  message : String
  deriving DecidableEq

/-- The toast shown by the poll-tick handler when the polled snapshot is
terminal (`completed`/`canceled`/`failed`). -/
def terminalToast (statusData : Snapshot) : Toast :=
  if statusData.status = "completed" then
    if statusData.exact.getD false then
      ⟨"success", "Exact solution count: " ++ showOptInt statusData.count⟩
    else ⟨"info", "Count completed with estimate."⟩
  else if statusData.status = "canceled" then
    ⟨"info", "Counting canceled. Latest lower bound: " ++ intToString (statusData.lower_bound.getD 0)⟩
  else ⟨"error", statusData.error.getD "Counting failed."⟩

/-! ## The counting-job poll loop

Event-loop model of `handleCountSolutions`'s polling machinery.  The
relevant mutable pieces are `countInfo`/`counting` (React state), the
interval handle `countPollIntervalRef` and the job id
`activeCountJobIdRef`.  Because the code always calls `clearCountPolling()`
before storing a new interval handle, at most one interval is ever live,
so the handle is modelled as a single `armed` flag.  Each tick's `fetch`
reads `activeCountJobIdRef.current` at fire time; the response later
resolves asynchronously, so in-flight requests are a list of fetched job
ids.  A tick whose fetch rejects, or whose response decodes to a non-ok
status, throws into the tick handler's `catch`; both are one `err` result
carrying the thrown message. -/

/-- The local state touched by the poll loop. -/
structure PollState where
  countInfo : Option Snapshot
  counting : Bool
  armed : Bool
  activeJobId : Option String
  inFlight : List String
  toasts : List Toast
  deriving DecidableEq

/-- What one poll tick's network exchange produced: a decoded snapshot, or
a thrown transport/decode/non-ok-status error message. -/
inductive PollResult where
  | ok (statusData : Snapshot) : PollResult
  | err (message : String) : PollResult
  deriving DecidableEq

/-- Events the event loop can interleave: an armed interval tick fires
(issuing a status fetch for the currently active job id), an in-flight
fetch resolves, or the start-success block of `handleCountSolutions` arms
a new job (lines 408-419: store job id, `setCounting(true)`,
`clearCountPolling()`, info toast, arm a fresh interval). -/
inductive PollEvent where
  | tick : PollEvent
  | response (jobId : String) (result : PollResult) : PollEvent
  | armJob (jobId : String) (startMsg : String) : PollEvent
  deriving DecidableEq

/-- The body of the interval callback once its `fetch`/decode has
resolved: `setCountInfo(statusData)` unconditionally, then, on a terminal
status, `clearCountPolling()`, `setCounting(false)` and a terminal toast;
on a thrown error, `clearCountPolling()`, `setCounting(false)` and an
error toast.  Note the handler never consults which job id its request was
for. -/
def applyPollResult (s : PollState) (result : PollResult) : PollState :=
  match result with
  | PollResult.ok statusData =>
      let s1 := { s with countInfo := some statusData }
      if isTerminalStatus statusData.status then
        { s1 with
          armed := false
          counting := false
          toasts := terminalToast statusData :: s1.toasts }
      else s1
  | PollResult.err message =>
      { s with
        armed := false
        counting := false
        toasts := Toast.mk "error" message :: s.toasts }

/-- One event-loop step; `none` when the event is not enabled (a tick of a
cleared interval never fires, and only an in-flight request can resolve). -/
def stepOn (s : PollState) : PollEvent → Option PollState
  | PollEvent.tick =>
      if s.armed then
        s.activeJobId.map (fun j => { s with inFlight := j :: s.inFlight })
      else none
  | PollEvent.response jobId result =>
      if jobId ∈ s.inFlight then
        some (applyPollResult { s with inFlight := s.inFlight.erase jobId } result)
      else none
  | PollEvent.armJob jobId startMsg =>
      some
        { s with
          activeJobId := some jobId
          counting := true
          armed := true
          toasts := Toast.mk "info" startMsg :: s.toasts }

/-- Run a sequence of event-loop events; `none` if some event was not
enabled. -/
def runEvents : PollState → List PollEvent → Option PollState
  | s, [] => some s
  | s, e :: es =>
      match stepOn s e with
      | some s1 => runEvents s1 es
      | none => none

/-- An event trace that never arms a new job. -/
def NoArm (es : List PollEvent) : Prop :=
  ∀ e ∈ es, ∀ jobId startMsg, e ≠ PollEvent.armJob jobId startMsg

/-! ## Numeric helper lemmas -/

/-- `jsMathRound` is `⌊q + 1/2⌋`, JavaScript's `Math.round`. -/
theorem jsMathRound_eq (q : ℚ) : jsMathRound q = ⌊q + 1 / 2⌋ := by
  rw [jsMathRound, Rat.divInt_eq_div]
  congr 1
  push_cast
  have h0 : ((q.den : ℚ)) ≠ 0 := by exact_mod_cast q.den_ne_zero
  have hq : q = (q.num : ℚ) / (q.den : ℚ) := (Rat.num_div_den q).symm
  conv_rhs => rw [hq]
  field_simp
  ring

/-- `ratMulInt` is multiplication by an integer factor. -/
theorem ratMulInt_eq (q : ℚ) (k : Int) : ratMulInt q k = q * k := by
  rw [ratMulInt, Rat.divInt_eq_div]
  push_cast
  have h0 : ((q.den : ℚ)) ≠ 0 := by exact_mod_cast q.den_ne_zero
  have hq : q = (q.num : ℚ) / (q.den : ℚ) := (Rat.num_div_den q).symm
  conv_rhs => rw [hq]
  field_simp

/-! ## Poll-loop lemmas -/

theorem runEvents_cons (s : PollState) (e : PollEvent) (es : List PollEvent) :
    runEvents s (e :: es) =
      match stepOn s e with
      | some s1 => runEvents s1 es
      | none => none := rfl

theorem stepOn_tick_some {s s1 : PollState}
    (h : stepOn s PollEvent.tick = some s1) :
    s.armed = true ∧ ∃ j, s.activeJobId = some j ∧
      s1 = { s with inFlight := j :: s.inFlight } := by
  simp only [stepOn] at h
  by_cases harm : s.armed = true
  · refine ⟨harm, ?_⟩
    rw [if_pos harm] at h
    cases hjob : s.activeJobId with
    | none => rw [hjob] at h; exact Option.noConfusion h
    | some j =>
        rw [hjob] at h
        simp only [Option.map_some', Option.some.injEq] at h
        exact ⟨j, rfl, h.symm⟩
  · rw [if_neg harm] at h
    exact Option.noConfusion h

theorem stepOn_response_some {s s1 : PollState} {jobId : String} {result : PollResult}
    (h : stepOn s (PollEvent.response jobId result) = some s1) :
    jobId ∈ s.inFlight ∧
      s1 = applyPollResult { s with inFlight := s.inFlight.erase jobId } result := by
  simp only [stepOn] at h
  by_cases hmem : jobId ∈ s.inFlight
  · simp only [hmem, if_pos, Option.some.injEq] at h
    exact ⟨hmem, h.symm⟩
  · simp only [hmem, if_false] at h
    exact Option.noConfusion h

theorem stepOn_armJob_eq (s : PollState) (jobId startMsg : String) :
    stepOn s (PollEvent.armJob jobId startMsg) =
      some
        { s with
          activeJobId := some jobId
          counting := true
          armed := true
          toasts := Toast.mk "info" startMsg :: s.toasts } := rfl

theorem applyPollResult_armed_false (s : PollState) (r : PollResult)
    (h : s.armed = false) : (applyPollResult s r).armed = false := by
  cases r with
  | ok statusData =>
      simp only [applyPollResult]
      split
      · rfl
      · exact h
  | err message => rfl

theorem applyPollResult_inFlight (s : PollState) (r : PollResult) :
    (applyPollResult s r).inFlight = s.inFlight := by
  cases r with
  | ok statusData =>
      simp only [applyPollResult]
      split <;> rfl
  | err message => rfl

theorem applyPollResult_activeJobId (s : PollState) (r : PollResult) :
    (applyPollResult s r).activeJobId = s.activeJobId := by
  cases r with
  | ok statusData =>
      simp only [applyPollResult]
      split <;> rfl
  | err message => rfl

/-- Once the interval is cleared, a trace that never arms a new job can
fire no tick and leaves the interval cleared. -/
theorem unarmed_run (es : List PollEvent) :
    ∀ s sf : PollState, s.armed = false → NoArm es → runEvents s es = some sf →
      PollEvent.tick ∉ es ∧ sf.armed = false := by
  induction es with
  | nil =>
      intro s sf h _ hrun
      refine ⟨List.not_mem_nil _, ?_⟩
      simp only [runEvents, Option.some.injEq] at hrun
      rw [← hrun]
      exact h
  | cons e es ih =>
      intro s sf h hna hrun
      rw [runEvents_cons] at hrun
      cases hstep : stepOn s e with
      | none => rw [hstep] at hrun; exact Option.noConfusion hrun
      | some s1 =>
          rw [hstep] at hrun
          cases e with
          | tick =>
              have := (stepOn_tick_some hstep).1
              rw [h] at this
              exact Bool.noConfusion this
          | response jobId result =>
              obtain ⟨hmem, hs1⟩ := stepOn_response_some hstep
              have h1 : s1.armed = false := by
                rw [hs1]
                exact applyPollResult_armed_false _ _ h
              have hrest := ih s1 sf h1 (fun x hx => hna x (List.mem_cons_of_mem _ hx)) hrun
              refine ⟨?_, hrest.2⟩
              intro hc
              rcases List.mem_cons.mp hc with hc | hc
              · exact PollEvent.noConfusion hc
              · exact hrest.1 hc
          | armJob jobId startMsg =>
              exact absurd rfl (hna _ (List.mem_cons_self _ _) jobId startMsg)

/-- After any step, the job id a tick would fetch is unchanged by
non-arming events, and in-flight requests only shrink or gain the
currently-armed id. -/
theorem run_preserves_activeJob (es : List PollEvent) :
    ∀ (t tf : PollState) (jobId : String) (P : String → Prop),
      t.activeJobId = some jobId → (∀ x ∈ t.inFlight, P x) → P jobId → NoArm es →
      runEvents t es = some tf →
      tf.activeJobId = some jobId ∧ ∀ x ∈ tf.inFlight, P x := by
  induction es with
  | nil =>
      intro t tf jobId P hjob hP hPj _ hrun
      simp only [runEvents, Option.some.injEq] at hrun
      rw [← hrun]
      exact ⟨hjob, hP⟩
  | cons e es ih =>
      intro t tf jobId P hjob hP hPj hna hrun
      rw [runEvents_cons] at hrun
      cases hstep : stepOn t e with
      | none => rw [hstep] at hrun; exact Option.noConfusion hrun
      | some t1 =>
          rw [hstep] at hrun
          cases e with
          | tick =>
              obtain ⟨-, j, hj, ht1⟩ := stepOn_tick_some hstep
              rw [hjob] at hj
              have hjj : j = jobId := by injection hj.symm
              refine ih t1 tf jobId P ?_ ?_ hPj
                (fun x hx => hna x (List.mem_cons_of_mem _ hx)) hrun
              · rw [ht1]; exact hjob
              · intro x hx
                rw [ht1] at hx
                rcases List.mem_cons.mp hx with hx | hx
                · rw [hx, hjj]; exact hPj
                · exact hP x hx
          | response rid result =>
              obtain ⟨hmem, ht1⟩ := stepOn_response_some hstep
              refine ih t1 tf jobId P ?_ ?_ hPj
                (fun x hx => hna x (List.mem_cons_of_mem _ hx)) hrun
              · rw [ht1, applyPollResult_activeJobId]
                exact hjob
              · intro x hx
                rw [ht1, applyPollResult_inFlight] at hx
                exact hP x (List.mem_of_mem_erase hx)
          | armJob jobId2 startMsg =>
              exact absurd rfl (hna _ (List.mem_cons_self _ _) jobId2 startMsg)


/-- C2 (amended): once job B is armed, every status request a tick issues
is tagged with B's job id (the tick reads the currently-armed
`activeCountJobIdRef`), so in-flight requests are only ever B's plus those
that were already pending when B was armed.  (The handler applies any
resolving response without a job-id check, so those pre-existing requests
can still land — see the counterexample.) -/
theorem newJob_polls_only_new_jobId
    (s s1 sf : PollState) (jobId startMsg : String) (es : List PollEvent)
    (hstep : stepOn s (PollEvent.armJob jobId startMsg) = some s1)
    (hna : NoArm es) (hrun : runEvents s1 es = some sf) :
    sf.activeJobId = some jobId ∧ ∀ x ∈ sf.inFlight, x = jobId ∨ x ∈ s.inFlight := by
  simp only [stepOn, Option.some.injEq] at hstep
  refine run_preserves_activeJob es s1 sf jobId (fun x => x = jobId ∨ x ∈ s.inFlight)
    ?_ ?_ (Or.inl rfl) hna hrun
  · rw [← hstep]
  · intro x hx
    rw [← hstep] at hx
    exact Or.inr hx

/-- C2 (counterexample): with job A armed and one of A's ticks in flight,
arming job B does not stop A's pending response from being applied: the
trace tick-of-A, arm-B, A's-response-resolves ends with `countInfo`
holding A's snapshot, changed after B was armed.  The controller has no
job-id check on responses. -/
theorem staleResponse_applied_after_newJob_armed :
    runEvents
        (PollState.mk none true true (some "A") [] [])
        [PollEvent.tick,
         PollEvent.armJob "B" "Counting solutions (up to 30s exact + estimate fallback)...",
         PollEvent.response "A"
           (PollResult.ok (Snapshot.mk "running" (some 5) (some 2) (some 10)
             none none none none none none))]
      = some
        (PollState.mk
          (some (Snapshot.mk "running" (some 5) (some 2) (some 10) none none none none none none))
          true true (some "B") []
          [Toast.mk "info" "Counting solutions (up to 30s exact + estimate fallback)..."]) ∧
    some (Snapshot.mk "running" (some 5) (some 2) (some 10) none none none none none none)
      ≠ (none : Option Snapshot) := by
  constructor
  · decide
  · decide

/-- Witness for `newJob_polls_only_new_jobId` at a concrete state and
trace. -/
theorem newJob_polls_only_new_jobId_witness :
    (PollState.mk none false false (some "B") ["B", "B"]
        [Toast.mk "error" "late", Toast.mk "info" "starting B"]).activeJobId = some "B" ∧
      ∀ x ∈ (PollState.mk none false false (some "B") ["B", "B"]
        [Toast.mk "error" "late", Toast.mk "info" "starting B"]).inFlight,
        x = "B" ∨ x ∈ (PollState.mk none true true (some "A") ["A"] []).inFlight :=
  newJob_polls_only_new_jobId
    (PollState.mk none true true (some "A") ["A"] [])
    (PollState.mk none true true (some "B") ["A"] [Toast.mk "info" "starting B"])
    (PollState.mk none false false (some "B") ["B", "B"]
      [Toast.mk "error" "late", Toast.mk "info" "starting B"])
    "B" "starting B"
    [PollEvent.tick, PollEvent.tick, PollEvent.response "A" (PollResult.err "late")]
    (by decide)
    (by
      intro e he j m
      fin_cases he <;> simp)
    (by decide)

/-! ## C3: terminal snapshots stop the poll loop -/

/-- C3: when a poll tick's response carries a terminal status
(`completed`, `canceled` or `failed`), the handler stores that snapshot in
`countInfo`, clears the interval and the `counting` flag, and no further
tick can fire on any continuation of the run until a new job is armed. -/
theorem terminal_tick_stops_polling
    (s s1 sf : PollState) (jobId : String) (statusData : Snapshot) (es : List PollEvent)
    (hterm : isTerminalStatus statusData.status = true)
    (hstep : stepOn s (PollEvent.response jobId (PollResult.ok statusData)) = some s1)
    (hna : NoArm es) (hrun : runEvents s1 es = some sf) :
    s1.countInfo = some statusData ∧ s1.armed = false ∧ s1.counting = false ∧
      PollEvent.tick ∉ es ∧ sf.armed = false := by
  simp only [stepOn] at hstep
  by_cases hmem : jobId ∈ s.inFlight
  · simp only [hmem, if_pos, Option.some.injEq] at hstep
    have hs1 : s1 = applyPollResult { s with inFlight := s.inFlight.erase jobId }
        (PollResult.ok statusData) := hstep.symm
    have hfields : s1.countInfo = some statusData ∧ s1.armed = false ∧ s1.counting = false := by
      rw [hs1]
      simp [applyPollResult, hterm]
    have hrest := unarmed_run es s1 sf hfields.2.1 hna hrun
    exact ⟨hfields.1, hfields.2.1, hfields.2.2, hrest.1, hrest.2⟩
  · simp only [hmem, if_false] at hstep
    exact Option.noConfusion hstep

/-- Witness for `terminal_tick_stops_polling`: a concrete `completed` tick. -/
theorem terminal_tick_stops_polling_witness :
    (PollState.mk
        (some (Snapshot.mk "completed" (some 8) (some 3) (some 100) (some true) (some 8)
          none none (some "exact") none))
        false false (some "A") []
        [Toast.mk "success" "Exact solution count: 8"]).countInfo
      = some (Snapshot.mk "completed" (some 8) (some 3) (some 100) (some true) (some 8)
          none none (some "exact") none) ∧
    (PollState.mk
        (some (Snapshot.mk "completed" (some 8) (some 3) (some 100) (some true) (some 8)
          none none (some "exact") none))
        false false (some "A") []
        [Toast.mk "success" "Exact solution count: 8"]).armed = false ∧
    (PollState.mk
        (some (Snapshot.mk "completed" (some 8) (some 3) (some 100) (some true) (some 8)
          none none (some "exact") none))
        false false (some "A") []
        [Toast.mk "success" "Exact solution count: 8"]).counting = false ∧
    PollEvent.tick ∉ ([] : List PollEvent) ∧
    (PollState.mk
        (some (Snapshot.mk "completed" (some 8) (some 3) (some 100) (some true) (some 8)
          none none (some "exact") none))
        false false (some "A") []
        [Toast.mk "success" "Exact solution count: 8"]).armed = false :=
  terminal_tick_stops_polling
    (PollState.mk none true true (some "A") ["A"] []) _ _ "A"
    (Snapshot.mk "completed" (some 8) (some 3) (some 100) (some true) (some 8)
      none none (some "exact") none)
    [] (by decide) (by decide)
    (fun e he => absurd he (List.not_mem_nil e)) (by decide)

/-! ## C4: transport/decode failure during a poll tick -/

/-- C4 (amended): a transport or decode failure in a poll tick stops the
loop (interval cleared, no tick fires until a new job is armed) and clears
the `counting` flag, surfacing the error only as a transient toast;
`countInfo` is left unchanged, so the count display keeps showing the last
polled snapshot, which need not be terminal. -/
theorem poll_error_stops_polling
    (s s1 sf : PollState) (jobId message : String) (es : List PollEvent)
    (hstep : stepOn s (PollEvent.response jobId (PollResult.err message)) = some s1)
    (hna : NoArm es) (hrun : runEvents s1 es = some sf) :
    s1.armed = false ∧ s1.counting = false ∧ s1.countInfo = s.countInfo ∧
      s1.toasts = Toast.mk "error" message :: s.toasts ∧
      PollEvent.tick ∉ es ∧ sf.armed = false := by
  simp only [stepOn] at hstep
  by_cases hmem : jobId ∈ s.inFlight
  · simp only [hmem, if_pos, Option.some.injEq] at hstep
    have hs1 : s1 = applyPollResult { s with inFlight := s.inFlight.erase jobId }
        (PollResult.err message) := hstep.symm
    have hfields : s1.armed = false ∧ s1.counting = false ∧ s1.countInfo = s.countInfo ∧
        s1.toasts = Toast.mk "error" message :: s.toasts := by
      rw [hs1]
      exact ⟨rfl, rfl, rfl, rfl⟩
    have hrest := unarmed_run es s1 sf hfields.1 hna hrun
    exact ⟨hfields.1, hfields.2.1, hfields.2.2.1, hfields.2.2.2, hrest.1, hrest.2⟩
  · simp only [hmem, if_false] at hstep
    exact Option.noConfusion hstep

/-- C4 (counterexample): after a transport failure the local job view is
NOT a terminal failed state: `countInfo` still holds the last snapshot
(here `running`), and the count display keeps rendering that non-terminal
status line. -/
theorem poll_error_leaves_nonterminal_display :
    stepOn
        (PollState.mk
          (some (Snapshot.mk "running" (some 5) (some 2) (some 10) none none none none none none))
          true true (some "A") ["A"] [])
        (PollEvent.response "A" (PollResult.err "Failed to fetch"))
      = some
        (PollState.mk
          (some (Snapshot.mk "running" (some 5) (some 2) (some 10) none none none none none none))
          false false (some "A") [] [Toast.mk "error" "Failed to fetch"]) ∧
    isTerminalStatus "running" = false ∧
    renderCountText
        (some (Snapshot.mk "running" (some 5) (some 2) (some 10) none none none none none none))
      = "Status: running. Lower bound so far: 5. Elapsed: 2s. Nodes visited: 10." := by
  refine ⟨by decide, by decide, ?_⟩
  decide

/-- Witness for `poll_error_stops_polling` at a concrete failing tick. -/
theorem poll_error_stops_polling_witness :
    (PollState.mk none false false (some "A") []
        [Toast.mk "error" "network down"]).armed = false ∧
    (PollState.mk none false false (some "A") []
        [Toast.mk "error" "network down"]).counting = false ∧
    (PollState.mk none false false (some "A") []
        [Toast.mk "error" "network down"]).countInfo
      = (PollState.mk none true true (some "A") ["A"] []).countInfo ∧
    (PollState.mk none false false (some "A") []
        [Toast.mk "error" "network down"]).toasts
      = Toast.mk "error" "network down" :: (PollState.mk none true true (some "A") ["A"] []).toasts ∧
    PollEvent.tick ∉ ([] : List PollEvent) ∧
    (PollState.mk none false false (some "A") []
        [Toast.mk "error" "network down"]).armed = false :=
  poll_error_stops_polling
    (PollState.mk none true true (some "A") ["A"] []) _ _ "A" "network down" []
    (by decide) (fun e he => absurd he (List.not_mem_nil e)) (by decide)

/-! ## Validator support lemmas -/

theorem except_bind_ok_iff {ε α β : Type} (x : Except ε α) (f : α → Except ε β) (v : β) :
    (x >>= f) = Except.ok v ↔ ∃ w, x = Except.ok w ∧ f w = Except.ok v := by
  cases x with
  | error err => simp [Bind.bind, Except.bind]
  | ok w => simp [Bind.bind, Except.bind]

theorem isAbsentCell_iff (cell : Json) :
    isAbsentCell cell = true ↔ (cell = Json.null ∨ cell = Json.str "") := by
  cases cell <;> simp [isAbsentCell]

/-- A rational equals an integer cast exactly when its denominator is `1`
and its numerator is that integer (the shape `Number.isInteger` tests). -/
theorem intCast_eq_iff {q : ℚ} {n : Int} : q = (n : ℚ) ↔ (q.den = 1 ∧ q.num = n) := by
  constructor
  · intro h
    subst h
    exact ⟨Rat.den_intCast n, Rat.num_intCast n⟩
  · rintro ⟨hden, hnum⟩
    rw [← hnum]
    exact ((Rat.den_eq_one_iff q).mp hden).symm

theorem natCast_rat_eq_iff {q : ℚ} {s : Nat} : q = (s : ℚ) ↔ (q.den = 1 ∧ q.num = (s : Int)) := by
  have h : ((s : ℚ)) = (((s : Int) : ℚ)) := by push_cast; rfl
  rw [h]
  exact intCast_eq_iff

theorem mapWithIdx_length {α β : Type} (f : Nat → α → β) :
    ∀ (i : Nat) (l : List α), (mapWithIdx f i l).length = l.length := by
  intro i l
  induction l generalizing i with
  | nil => rfl
  | cons x xs ih => simp [mapWithIdx, ih]

theorem mem_mapWithIdx {α β : Type} (f : Nat → α → β) :
    ∀ (i : Nat) (l : List α) (x : β), x ∈ mapWithIdx f i l → ∃ j a, a ∈ l ∧ x = f j a := by
  intro i l
  induction l generalizing i with
  | nil => intro x hx; exact absurd hx (List.not_mem_nil x)
  | cons y ys ih =>
      intro x hx
      rcases List.mem_cons.mp hx with hx | hx
      · exact ⟨i, y, List.mem_cons_self y ys, hx⟩
      · rcases ih (i + 1) x hx with ⟨j, a, ha, hfa⟩
        exact ⟨j, a, List.mem_cons_of_mem y ha, hfa⟩

theorem mapWithIdx_get? {α β : Type} (f : Nat → α → β) (l : List α) :
    ∀ i n, (mapWithIdx f i l).get? n = (l.get? n).map (fun x => f (i + n) x) := by
  induction l with
  | nil => intro i n; simp [mapWithIdx]
  | cons x xs ih =>
      intro i n
      cases n with
      | zero => simp [mapWithIdx]
      | succ m =>
          simp only [mapWithIdx, List.get?_cons_succ]
          have h2 : i + 1 + m = i + (m + 1) := by omega
          rw [ih (i + 1) m, h2]

theorem parseCellValue_pos (v : String) (n : Int) (h : parseCellValue v = some n) : 1 ≤ n := by
  rw [parseCellValue] at h
  by_cases ht : jsTrim v = ""
  · rw [if_pos ht] at h
    exact Option.noConfusion h
  · rw [if_neg ht] at h
    cases hn : jsStringToNumber v with
    | none => rw [hn] at h; exact Option.noConfusion h
    | some q =>
        rw [hn] at h
        have h2 : (if jsIsInteger q ∧ 1 ≤ q.num then some q.num else none) = some n := h
        by_cases hq : jsIsInteger q ∧ 1 ≤ q.num
        · rw [if_pos hq] at h2
          have : q.num = n := by injection h2
          rw [← this]
          exact hq.2
        · rw [if_neg hq] at h2
          exact Option.noConfusion h2

theorem normalizeCell_cellToJson (r c : Nat) (cell : Option Int)
    (hpos : ∀ n, cell = some n → 1 ≤ n) :
    normalizeCell r c (cellToJson cell) = Except.ok cell := by
  cases cell with
  | none => rfl
  | some n =>
      have h1 := hpos n rfl
      simp only [cellToJson, normalizeCell, isAbsentCell]
      rw [if_neg (by simp)]
      simp only [jsToNumber]
      rw [if_pos ⟨by simp [jsIsInteger], by simpa using h1⟩]
      simp

theorem normalizeRowCells_roundTrip (r : Nat) :
    ∀ (row : List (Option Int)) (i : Nat),
      (∀ cell ∈ row, ∀ n, cell = some n → 1 ≤ n) →
      normalizeRowCells r i (row.map cellToJson) = Except.ok row := by
  intro row
  induction row with
  | nil => intro i _; rfl
  | cons cell cells ih =>
      intro i hpos
      simp only [List.map_cons, normalizeRowCells]
      rw [normalizeCell_cellToJson r i cell (hpos cell (List.mem_cons_self cell cells)),
        ih (i + 1) (fun x hx n hn => hpos x (List.mem_cons_of_mem cell hx) n hn)]
      rfl

theorem normalizeRows_roundTrip (size : Nat) :
    ∀ (kg : List (List (Option Int))) (i : Nat),
      (∀ row ∈ kg, row.length = size) →
      (∀ row ∈ kg, ∀ cell ∈ row, ∀ n, cell = some n → 1 ≤ n) →
      normalizeRows size i (kg.map rowToJson) = Except.ok kg := by
  intro kg
  induction kg with
  | nil => intro i _ _; rfl
  | cons row rest ih =>
      intro i hlen hpos
      simp only [List.map_cons, rowToJson, normalizeRows]
      rw [if_pos (by rw [List.length_map]; exact hlen row (List.mem_cons_self row rest))]
      rw [normalizeRowCells_roundTrip i row 0 (hpos row (List.mem_cons_self row rest))]
      rw [ih (i + 1) (fun x hx => hlen x (List.mem_cons_of_mem row hx))
        (fun x hx => hpos x (List.mem_cons_of_mem row hx))]
      rfl

theorem normalizeRows_ok_shape (size : Nat) :
    ∀ (rows : List Json) (i : Nat) (res : List (List (Option Int))),
      normalizeRows size i rows = Except.ok res →
      ∀ row ∈ rows, ∃ cells, row = Json.arr cells ∧ cells.length = size := by
  intro rows
  induction rows with
  | nil => intro i res _ row hmem; exact absurd hmem (List.not_mem_nil row)
  | cons row rest ih =>
      intro i res h row' hmem
      cases row with
      | arr cells =>
          simp only [normalizeRows] at h
          by_cases hlen : cells.length = size
          · rw [if_pos hlen] at h
            rcases List.mem_cons.mp hmem with hm | hm
            · exact ⟨cells, by rw [hm], hlen⟩
            · rcases (except_bind_ok_iff _ _ _).mp h with ⟨rcells, hr, h2⟩
              rcases (except_bind_ok_iff _ _ _).mp h2 with ⟨rrows, hrs, h3⟩
              exact ih (i + 1) rrows hrs row' hm
          · rw [if_neg hlen] at h
            exact Except.noConfusion h
      | null => exact Except.noConfusion h
      | bool b => exact Except.noConfusion h
      | num q => exact Except.noConfusion h
      | str s => exact Except.noConfusion h
      | obj f => exact Except.noConfusion h

theorem buildKnownGrid_ok_eq (s : AppState) (flag : Bool) (kg : List (List (Option Int)))
    (h : buildKnownGrid s flag = Except.ok kg) :
    kg = knownGridCells s.gridInput s.userProvided flag := by
  rw [buildKnownGrid] at h
  split at h
  · exact Except.noConfusion h
  · injection h.symm

theorem knownGridCells_pos (g : List (List String)) (m : List (List Bool)) (flag : Bool) :
    ∀ row ∈ knownGridCells g m flag, ∀ cell ∈ row, ∀ n, cell = some n → 1 ≤ n := by
  intro row hrow cell hcell n hn
  rcases mem_mapWithIdx _ _ _ _ hrow with ⟨j, a, ha, hrow2⟩
  rw [hrow2] at hcell
  rcases mem_mapWithIdx _ _ _ _ hcell with ⟨j2, c2, hc2, hcell2⟩
  rw [hcell2] at hn
  by_cases hcond : (flag ∧ ¬ maskAt m j j2)
  · rw [if_pos hcond] at hn
    exact Option.noConfusion hn
  · rw [if_neg hcond] at hn
    exact parseCellValue_pos c2 n hn

theorem cellAt_knownGridCells (g : List (List String)) (m : List (List Bool))
    (flag : Bool) (r c : Nat) :
    cellAt (knownGridCells g m flag) r c =
      (cellAt g r c).map
        (fun cell => if flag ∧ ¬ maskAt m r c then none else parseCellValue cell) := by
  unfold cellAt knownGridCells
  rw [mapWithIdx_get?]
  cases hg : g.get? r with
  | none => simp
  | some row =>
      simp only [Option.map_some', Option.some_bind, Nat.zero_add]
      rw [mapWithIdx_get?]
      cases hrow : row.get? c with
      | none => simp
      | some cell => simp [Nat.zero_add]

theorem validateTarget_lt (s : AppState) (t : Int)
    (h : validateTarget s = Except.ok t) : (s.size : Int) < t := by
  rw [validateTarget] at h
  cases hn : jsToNumber s.target with
  | none => rw [hn] at h; exact Except.noConfusion h
  | some q =>
      rw [hn] at h
      have h2 : (if jsIsInteger q then
          if q.num ≤ (s.size : Int) then Except.error "Target must be greater than grid size."
          else Except.ok q.num
        else Except.error "Target must be an integer.") = Except.ok t := h
      by_cases hint : jsIsInteger q
      · rw [if_pos hint] at h2
        by_cases hle : q.num ≤ (s.size : Int)
        · rw [if_pos hle] at h2
          exact Except.noConfusion h2
        · rw [if_neg hle] at h2
          have : q.num = t := by injection h2
          omega
      · rw [if_neg hint] at h2
        exact Except.noConfusion h2

theorem checkSize_ok_iff (fields : List (String × Json)) (s : Nat) :
    checkSize fields = Except.ok s ↔
      (jsToNumberU (lookupField fields "size") = some (s : ℚ) ∧
        MIN_SIZE ≤ s ∧ s ≤ MAX_SIZE) := by
  cases hn : jsToNumberU (lookupField fields "size") with
  | none =>
      simp only [checkSize, hn]
      constructor
      · intro h; exact Except.noConfusion h
      · rintro ⟨h1, -⟩; exact Option.noConfusion h1
  | some q =>
      simp only [checkSize, hn]
      by_cases hc : jsIsInteger q ∧ (MIN_SIZE : Int) ≤ q.num ∧ q.num ≤ (MAX_SIZE : Int)
      · rw [if_pos hc]
        obtain ⟨hint, hlo, hhi⟩ := hc
        have hden : q.den = 1 := by simpa [jsIsInteger] using hint
        constructor
        · intro h
          have hts : q.num.toNat = s := by injection h
          have hpos : 0 ≤ q.num := le_trans (by norm_num [MIN_SIZE]) hlo
          have hnum : q.num = (s : Int) := by omega
          refine ⟨congrArg some (natCast_rat_eq_iff.mpr ⟨hden, hnum⟩), ?_, ?_⟩
          · rw [MIN_SIZE]; rw [MIN_SIZE] at hlo; omega
          · rw [MAX_SIZE]; rw [MAX_SIZE] at hhi; omega
        · rintro ⟨h1, hlo2, hhi2⟩
          have hq : q = (s : ℚ) := by injection h1
          have hnum := (natCast_rat_eq_iff.mp hq).2
          rw [hnum]
          simp
      · rw [if_neg hc]
        constructor
        · intro h; exact Except.noConfusion h
        · rintro ⟨h1, hlo2, hhi2⟩
          have hq : q = (s : ℚ) := by injection h1
          obtain ⟨hden, hnum⟩ := natCast_rat_eq_iff.mp hq
          refine absurd ⟨by simp [jsIsInteger, hden], ?_, ?_⟩ hc
          · rw [hnum, MIN_SIZE]; rw [MIN_SIZE] at hlo2; omega
          · rw [hnum, MAX_SIZE]; rw [MAX_SIZE] at hhi2; omega

theorem checkTarget_ok_iff (fields : List (String × Json)) (parsedSize : Nat) (t : Int) :
    checkTarget fields parsedSize = Except.ok t ↔
      (jsToNumberU (lookupField fields "target") = some (t : ℚ) ∧ (parsedSize : Int) < t) := by
  cases hn : jsToNumberU (lookupField fields "target") with
  | none =>
      simp only [checkTarget, hn]
      constructor
      · intro h; exact Except.noConfusion h
      · rintro ⟨h1, -⟩; exact Option.noConfusion h1
  | some q =>
      simp only [checkTarget, hn]
      by_cases hc : jsIsInteger q ∧ (parsedSize : Int) < q.num
      · rw [if_pos hc]
        obtain ⟨hint, hlt⟩ := hc
        have hden : q.den = 1 := by simpa [jsIsInteger] using hint
        constructor
        · intro h
          have hnum : q.num = t := by injection h
          exact ⟨congrArg some (intCast_eq_iff.mpr ⟨hden, hnum⟩), hnum ▸ hlt⟩
        · rintro ⟨h1, hlt2⟩
          have hq : q = (t : ℚ) := by injection h1
          rw [(intCast_eq_iff.mp hq).2]
      · rw [if_neg hc]
        constructor
        · intro h; exact Except.noConfusion h
        · rintro ⟨h1, hlt2⟩
          have hq : q = (t : ℚ) := by injection h1
          obtain ⟨hden, hnum⟩ := intCast_eq_iff.mp hq
          exact absurd ⟨by simp [jsIsInteger, hden], hnum ▸ hlt2⟩ hc

/-! ## C1: acceptance condition of the JSON puzzle validator -/

/-- C1 (amended): `parsePuzzleJson` accepts a JSON object exactly when its
`size` coerces to an integer in `[MIN_SIZE, MAX_SIZE]`, its `target`
coerces to an integer strictly greater than the size, AND additionally its
`game_mode` (when present) is recognized and its `known_grid`/`grid`
normalizes; and an input with `size: 10` is rejected with the range error
naming the bounds 2 and 7. -/
theorem parsePuzzleJson_accept_iff :
    (∀ fields : List (String × Json),
      (∃ spec, parsePuzzleJson (Json.obj fields) = Except.ok spec) ↔
        ∃ s : Nat,
          (jsToNumberU (lookupField fields "size") = some (s : ℚ) ∧
            MIN_SIZE ≤ s ∧ s ≤ MAX_SIZE) ∧
          (∃ t : Int, jsToNumberU (lookupField fields "target") = some (t : ℚ) ∧
            (s : Int) < t) ∧
          (∃ gm, checkGameMode fields = Except.ok gm) ∧
          (∃ kg, normalizeKnownGrid (rawGridField fields) s = Except.ok kg)) ∧
    parsePuzzleJson (Json.obj [("size", Json.num 10), ("target", Json.num 20)]) =
      Except.error "size must be an integer between 2 and 7." := by
  constructor
  · intro fields
    constructor
    · rintro ⟨spec, h⟩
      simp only [parsePuzzleJson] at h
      rcases (except_bind_ok_iff _ _ _).mp h with ⟨s, hs, h2⟩
      rcases (except_bind_ok_iff _ _ _).mp h2 with ⟨t, ht, h3⟩
      rcases (except_bind_ok_iff _ _ _).mp h3 with ⟨gm, hgm, h4⟩
      rcases (except_bind_ok_iff _ _ _).mp h4 with ⟨kg, hkg, h5⟩
      rcases (checkSize_ok_iff fields s).mp hs with ⟨hs1, hs2, hs3⟩
      rcases (checkTarget_ok_iff fields s t).mp ht with ⟨ht1, ht2⟩
      exact ⟨s, ⟨hs1, hs2, hs3⟩, ⟨t, ht1, ht2⟩, ⟨gm, hgm⟩, ⟨kg, hkg⟩⟩
    · rintro ⟨s, hsz, ⟨t, ht1, ht2⟩, ⟨gm, hgm⟩, ⟨kg, hkg⟩⟩
      refine ⟨⟨s, t, gm, kg⟩, ?_⟩
      simp only [parsePuzzleJson]
      rw [(checkSize_ok_iff fields s).mpr hsz]
      rw [except_bind_ok_iff]
      refine ⟨s, rfl, ?_⟩
      rw [(checkTarget_ok_iff fields s t).mpr ⟨ht1, ht2⟩]
      rw [except_bind_ok_iff]
      refine ⟨t, rfl, ?_⟩
      rw [hgm, except_bind_ok_iff]
      refine ⟨gm, rfl, ?_⟩
      rw [hkg, except_bind_ok_iff]
      exact ⟨kg, rfl, rfl⟩
  · decide

/-- C1 (counterexample): an object whose size (3) is an integer in `[2,7]`
and whose target (15) is an integer greater than the size is nevertheless
rejected, because its `game_mode` is unrecognized — acceptance is not
equivalent to the size/target conditions alone. -/
theorem parsePuzzleJson_rejects_valid_size_target_on_bad_mode :
    parsePuzzleJson (Json.obj
        [("size", Json.num 3), ("target", Json.num 15), ("game_mode", Json.str "weird")])
      = Except.error "game_mode must be one of: unbounded, bounded_by_size_squared." ∧
    jsToNumberU (lookupField
        [("size", Json.num 3), ("target", Json.num 15), ("game_mode", Json.str "weird")]
        "size") = some ((3 : Nat) : ℚ) ∧
    MIN_SIZE ≤ 3 ∧ 3 ≤ MAX_SIZE ∧
    jsToNumberU (lookupField
        [("size", Json.num 3), ("target", Json.num 15), ("game_mode", Json.str "weird")]
        "target") = some ((15 : Int) : ℚ) ∧
    ((3 : Nat) : Int) < 15 := by
  refine ⟨by decide, by decide, by decide, by decide, by decide, by decide⟩

/-- Witness for `parsePuzzleJson_accept_iff`: a well-formed minimal input
is accepted via the characterization. -/
theorem parsePuzzleJson_accept_iff_witness :
    ∃ spec, parsePuzzleJson (Json.obj [("size", Json.num 3), ("target", Json.num 15)])
      = Except.ok spec :=
  (parsePuzzleJson_accept_iff.1 [("size", Json.num 3), ("target", Json.num 15)]).mpr
    ⟨3, ⟨by decide, by decide, by decide⟩, ⟨15, by decide, by decide⟩,
      ⟨"unbounded", by decide⟩, ⟨createGrid 3 none, by decide⟩⟩

/-! ## C5: per-cell coercion of an imported known grid -/

/-- C5: a known-grid cell normalizes to absent exactly when it is `null`
or the empty string; it normalizes to a value `n` exactly when `Number`
coerces it to the integer `n ≥ 1`; otherwise normalization fails with the
cell error naming the coordinate 1-based. -/
theorem normalizeCell_spec (r c : Nat) (cell : Json) :
    (normalizeCell r c cell = Except.ok none ↔ (cell = Json.null ∨ cell = Json.str "")) ∧
    (∀ n : Int, normalizeCell r c cell = Except.ok (some n) ↔
      (jsToNumber cell = some (n : ℚ) ∧ 1 ≤ n)) ∧
    (∀ msg, normalizeCell r c cell = Except.error msg →
      msg = "Cell (" ++ natToString (r + 1) ++ ", " ++ natToString (c + 1) ++
        ") must be an integer >= 1 or null.") := by
  by_cases habs : isAbsentCell cell = true
  · have hcell := (isAbsentCell_iff cell).mp habs
    have hnorm : normalizeCell r c cell = Except.ok none := by
      rw [normalizeCell, if_pos habs]
    have hnum0 : jsToNumber cell = some 0 := by
      rcases hcell with h | h <;> subst h <;> rfl
    refine ⟨⟨fun _ => hcell, fun _ => hnorm⟩, ?_, ?_⟩
    · intro n
      rw [hnorm]
      constructor
      · intro h
        have : (none : Option Int) = some n := by injection h
        exact Option.noConfusion this
      · rintro ⟨h1, h2⟩
        rw [hnum0] at h1
        have h0 : (0 : ℚ) = (n : ℚ) := by injection h1
        have : n = 0 := by exact_mod_cast h0.symm
        omega
    · intro msg h
      rw [hnorm] at h
      exact Except.noConfusion h
  · have hcell : ¬(cell = Json.null ∨ cell = Json.str "") := fun hc =>
      habs ((isAbsentCell_iff cell).mpr hc)
    have hred : normalizeCell r c cell =
        (match jsToNumber cell with
         | some q =>
             if jsIsInteger q ∧ 1 ≤ q.num then Except.ok (some q.num)
             else Except.error (cellErrMsg r c)
         | none => Except.error (cellErrMsg r c)) := by
      rw [normalizeCell, if_neg habs]
    cases hnum : jsToNumber cell with
    | none =>
        rw [hnum] at hred
        have herr : normalizeCell r c cell = Except.error (cellErrMsg r c) := hred
        refine ⟨?_, ?_, ?_⟩
        · rw [herr]
          exact ⟨fun h => Except.noConfusion h, fun h => absurd h hcell⟩
        · intro n
          rw [herr]
          exact ⟨fun h => Except.noConfusion h, fun hr => Option.noConfusion hr.1⟩
        · intro msg h
          rw [herr] at h
          have hmsg : cellErrMsg r c = msg := by injection h
          rw [← hmsg, cellErrMsg]
    | some q =>
        rw [hnum] at hred
        by_cases hq : jsIsInteger q ∧ 1 ≤ q.num
        · have hok : normalizeCell r c cell = Except.ok (some q.num) := by
            rw [hred]; exact if_pos hq
          refine ⟨?_, ?_, ?_⟩
          · rw [hok]
            constructor
            · intro h
              have : some q.num = (none : Option Int) := by injection h
              exact Option.noConfusion this
            · intro h
              exact absurd h hcell
          · intro n
            rw [hok]
            constructor
            · intro h
              have hsome : some q.num = some n := by injection h
              have hn : q.num = n := by injection hsome
              refine ⟨?_, ?_⟩
              · exact congrArg some (intCast_eq_iff.mpr
                  ⟨by simpa [jsIsInteger] using hq.1, hn⟩)
              · rw [← hn]; exact hq.2
            · rintro ⟨h1, h2⟩
              have hqn : q = (n : ℚ) := by injection h1
              rw [(intCast_eq_iff.mp hqn).2]
          · intro msg h
            rw [hok] at h
            exact Except.noConfusion h
        · have herr : normalizeCell r c cell = Except.error (cellErrMsg r c) := by
            rw [hred]; exact if_neg hq
          refine ⟨?_, ?_, ?_⟩
          · rw [herr]
            exact ⟨fun h => Except.noConfusion h, fun h => absurd h hcell⟩
          · intro n
            rw [herr]
            constructor
            · intro h; exact Except.noConfusion h
            · rintro ⟨h1, h2⟩
              have hqn : q = (n : ℚ) := by injection h1
              have hd := intCast_eq_iff.mp hqn
              exact absurd ⟨by simp [jsIsInteger, hd.1], by rw [hd.2]; exact h2⟩ hq
          · intro msg h
            rw [herr] at h
            have hmsg : cellErrMsg r c = msg := by injection h
            rw [← hmsg, cellErrMsg]

/-- Witness for `normalizeCell_spec`: the cell `(0, 1)` holding `0` fails,
and its message names the coordinate as `(1, 2)`. -/
theorem normalizeCell_spec_witness :
    ("Cell (1, 2) must be an integer >= 1 or null." : String)
      = "Cell (" ++ natToString (0 + 1) ++ ", " ++ natToString (1 + 1) ++
        ") must be an integer >= 1 or null." :=
  (normalizeCell_spec 0 1 (Json.num 0)).2.2
    "Cell (1, 2) must be an integer >= 1 or null." (by decide)

/-! ## C6: export / re-import round trip -/

/-- Parsing the export payload object succeeds and reproduces the exported
size, target, game mode and known grid. -/
theorem parsePuzzleJson_payload (size : Nat) (t : Int) (gm : String)
    (kg : List (List (Option Int)))
    (hs2 : MIN_SIZE ≤ size) (hs7 : size ≤ MAX_SIZE)
    (ht : (size : Int) < t)
    (hmode : gm ∈ GAME_MODES)
    (hlen : kg.length = size)
    (hrows : ∀ row ∈ kg, row.length = size)
    (hpos : ∀ row ∈ kg, ∀ cell ∈ row, ∀ n, cell = some n → 1 ≤ n) :
    parsePuzzleJson (Json.obj
      [("size", Json.num (size : ℚ)), ("target", Json.num (t : ℚ)),
       ("game_mode", Json.str gm), ("known_grid", knownGridToJson kg)])
      = Except.ok ⟨size, t, gm, kg⟩ := by
  simp only [parsePuzzleJson]
  rw [(checkSize_ok_iff
      [("size", Json.num (size : ℚ)), ("target", Json.num (t : ℚ)),
       ("game_mode", Json.str gm), ("known_grid", knownGridToJson kg)] size).mpr
    ⟨rfl, hs2, hs7⟩]
  rw [except_bind_ok_iff]
  refine ⟨size, rfl, ?_⟩
  rw [(checkTarget_ok_iff
      [("size", Json.num (size : ℚ)), ("target", Json.num (t : ℚ)),
       ("game_mode", Json.str gm), ("known_grid", knownGridToJson kg)] size t).mpr
    ⟨rfl, ht⟩]
  rw [except_bind_ok_iff]
  refine ⟨t, rfl, ?_⟩
  have hgm : checkGameMode
      [("size", Json.num (size : ℚ)), ("target", Json.num (t : ℚ)),
       ("game_mode", Json.str gm), ("known_grid", knownGridToJson kg)] = Except.ok gm := by
    rw [show checkGameMode
        [("size", Json.num (size : ℚ)), ("target", Json.num (t : ℚ)),
         ("game_mode", Json.str gm), ("known_grid", knownGridToJson kg)]
      = if gm ∈ GAME_MODES then Except.ok gm else Except.error gameModeErrMsg from rfl]
    rw [if_pos hmode]
  rw [hgm, except_bind_ok_iff]
  refine ⟨gm, rfl, ?_⟩
  have hng : normalizeKnownGrid
      (rawGridField
        [("size", Json.num (size : ℚ)), ("target", Json.num (t : ℚ)),
         ("game_mode", Json.str gm), ("known_grid", knownGridToJson kg)]) size
      = Except.ok kg := by
    have h1 : rawGridField
        [("size", Json.num (size : ℚ)), ("target", Json.num (t : ℚ)),
         ("game_mode", Json.str gm), ("known_grid", knownGridToJson kg)]
      = some (Json.arr (kg.map rowToJson)) := rfl
    rw [h1]
    simp only [normalizeKnownGrid]
    rw [if_pos (by rw [List.length_map]; exact hlen)]
    exact normalizeRows_roundTrip size kg 0 hrows hpos
  rw [hng, except_bind_ok_iff]
  exact ⟨kg, rfl, rfl⟩

/-- C6: for a grid state that passes export validation (its target and
known grid validate, its size and game mode come from the UI's ranges),
`handleDownloadPuzzle` produces its payload object and re-importing that
object through `parsePuzzleJson` yields the `PuzzleSpec` with the same
size, target, game mode and known cells. -/
theorem downloadPuzzle_roundTrip (s : AppState) (t : Int) (kg : List (List (Option Int)))
    (hs2 : MIN_SIZE ≤ s.size) (hs7 : s.size ≤ MAX_SIZE)
    (hmode : s.gameMode ∈ GAME_MODES)
    (hdim1 : s.gridInput.length = s.size)
    (hdim2 : ∀ row ∈ s.gridInput, row.length = s.size)
    (hvt : validateTarget s = Except.ok t)
    (hbk : buildKnownGrid s false = Except.ok kg) :
    downloadPayload s = Except.ok (downloadPayloadObj s t kg) ∧
    parsePuzzleJson (downloadPayloadObj s t kg) =
      Except.ok ⟨s.size, t, s.gameMode, kg⟩ := by
  have hkg := buildKnownGrid_ok_eq s false kg hbk
  have hkglen : kg.length = s.size := by
    rw [hkg, knownGridCells, mapWithIdx_length, hdim1]
  have hkgrows : ∀ row ∈ kg, row.length = s.size := by
    intro row hrow
    rw [hkg, knownGridCells] at hrow
    rcases mem_mapWithIdx _ _ _ _ hrow with ⟨j, a, ha, hrw⟩
    rw [hrw, mapWithIdx_length]
    exact hdim2 a ha
  have hkgpos : ∀ row ∈ kg, ∀ cell ∈ row, ∀ n, cell = some n → 1 ≤ n := by
    rw [hkg]
    exact knownGridCells_pos _ _ _
  have hlt := validateTarget_lt s t hvt
  constructor
  · rw [downloadPayload, hvt, hbk]
    rfl
  · rw [downloadPayloadObj]
    exact parsePuzzleJson_payload s.size t s.gameMode kg hs2 hs7 hlt hmode
      hkglen hkgrows hkgpos

/-- Witness for `downloadPuzzle_roundTrip`: a concrete 3×3 state with two
known cells exports and re-imports to the same spec. -/
theorem downloadPuzzle_roundTrip_witness :
    downloadPayload
        (AppState.mk 3 (Json.num 15)
          [["8", "", ""], ["", "", ""], ["", "", "5"]]
          [[true, false, false], [false, false, false], [false, false, true]]
          "unbounded" none false (Json.num 30) false "")
      = Except.ok (downloadPayloadObj
          (AppState.mk 3 (Json.num 15)
            [["8", "", ""], ["", "", ""], ["", "", "5"]]
            [[true, false, false], [false, false, false], [false, false, true]]
            "unbounded" none false (Json.num 30) false "")
          15 [[some 8, none, none], [none, none, none], [none, none, some 5]]) ∧
    parsePuzzleJson (downloadPayloadObj
        (AppState.mk 3 (Json.num 15)
          [["8", "", ""], ["", "", ""], ["", "", "5"]]
          [[true, false, false], [false, false, false], [false, false, true]]
          "unbounded" none false (Json.num 30) false "")
        15 [[some 8, none, none], [none, none, none], [none, none, some 5]])
      = Except.ok ⟨3, 15, "unbounded",
          [[some 8, none, none], [none, none, none], [none, none, some 5]]⟩ :=
  downloadPuzzle_roundTrip
    (AppState.mk 3 (Json.num 15)
      [["8", "", ""], ["", "", ""], ["", "", "5"]]
      [[true, false, false], [false, false, false], [false, false, true]]
      "unbounded" none false (Json.num 30) false "")
    15 [[some 8, none, none], [none, none, none], [none, none, some 5]]
    (by decide) (by decide) (by decide) (by decide) (by decide) (by decide) (by decide)

/-! ## C7: presentation of terminal snapshots -/

/-- C7 (amended): for a terminal `canceled` snapshot the cancellation
notice naming the latest lower bound is produced as the terminal tick's
toast, while `renderCountText` itself shows a bare lower-bound line; for a
terminal `failed` snapshot the service error string (or the generic
failure line) appears only in the toast, `renderCountText` again showing
the bare lower-bound line. -/
theorem presenter_terminal_text (sd : Snapshot) :
    (sd.status = "canceled" →
      terminalToast sd = Toast.mk "info"
        ("Counting canceled. Latest lower bound: " ++ intToString (sd.lower_bound.getD 0)) ∧
      (sd.exact.getD false = false → sd.mode_used ≠ some "auto" →
        sd.mode_used ≠ some "estimate" →
        renderCountText (some sd)
          = "Lower bound: " ++ intToString (sd.lower_bound.getD 0) ++ ".")) ∧
    (sd.status = "failed" →
      terminalToast sd = Toast.mk "error" (sd.error.getD "Counting failed.") ∧
      (sd.exact.getD false = false → sd.mode_used ≠ some "auto" →
        sd.mode_used ≠ some "estimate" →
        renderCountText (some sd)
          = "Lower bound: " ++ intToString (sd.lower_bound.getD 0) ++ ".")) := by
  constructor
  · intro h
    constructor
    · simp [terminalToast, h]
    · intro hexact hauto hest
      simp [renderCountText, h, hexact, hauto, hest]
  · intro h
    constructor
    · simp [terminalToast, h]
    · intro hexact hauto hest
      simp [renderCountText, h, hexact, hauto, hest]

/-- C7 (counterexample): for a `failed` snapshot carrying the service
error `"boom"`, `renderCountText` shows `"Lower bound: 0."` — neither the
service error string nor the generic failure line; the cancellation
framing likewise never appears in `renderCountText` for a `canceled`
snapshot. -/
theorem renderCountText_failed_shows_lower_bound :
    renderCountText
        (some (Snapshot.mk "failed" none none none none none none none none (some "boom")))
      = "Lower bound: 0." ∧
    ("Lower bound: 0." : String) ≠ "boom" ∧
    ("Lower bound: 0." : String) ≠ "Counting failed." ∧
    renderCountText
        (some (Snapshot.mk "canceled" (some 3) none none none none none none none none))
      = "Lower bound: 3." := by
  refine ⟨by decide, by decide, by decide, by decide⟩

/-- Witness for `presenter_terminal_text` at a concrete canceled snapshot
with lower bound 3. -/
theorem presenter_terminal_text_witness :
    terminalToast (Snapshot.mk "canceled" (some 3) none none none none none none none none)
      = Toast.mk "info" "Counting canceled. Latest lower bound: 3" ∧
    renderCountText
        (some (Snapshot.mk "canceled" (some 3) none none none none none none none none))
      = "Lower bound: 3." := by
  constructor
  · have h := ((presenter_terminal_text
      (Snapshot.mk "canceled" (some 3) none none none none none none none none)).1 rfl).1
    exact h.trans (by decide)
  · have h := ((presenter_terminal_text
      (Snapshot.mk "canceled" (some 3) none none none none none none none none)).1 rfl).2
      rfl (by decide) (by decide)
    exact h.trans (by decide)

/-! ## C8: shape checking of the imported known grid -/

/-- C8 (amended): when the `known_grid`/`grid` value is present and
non-null, normalization succeeds only on an exactly `size × size` array of
arrays, and a value that is not an array of `size` rows is rejected with
the shape error; when the field is absent or `null`, however, a fresh
all-null `size × size` grid is silently substituted. -/
theorem knownGrid_shape_check (size : Nat) (v : Json) :
    normalizeKnownGrid none size = Except.ok (createGrid size none) ∧
    normalizeKnownGrid (some Json.null) size = Except.ok (createGrid size none) ∧
    (v ≠ Json.null → (¬ ∃ rows, v = Json.arr rows ∧ rows.length = size) →
      normalizeKnownGrid (some v) size = Except.error (shapeErrMsg size)) ∧
    (v ≠ Json.null → ∀ res, normalizeKnownGrid (some v) size = Except.ok res →
      ∃ rows, v = Json.arr rows ∧ rows.length = size ∧
        ∀ row ∈ rows, ∃ cells, row = Json.arr cells ∧ cells.length = size) := by
  refine ⟨rfl, rfl, ?_, ?_⟩
  · intro hnotnull hshape
    cases v with
    | arr rows =>
        have hlen : rows.length ≠ size := fun hl => hshape ⟨rows, rfl, hl⟩
        simp only [normalizeKnownGrid]
        rw [if_neg hlen]
    | null => exact absurd rfl hnotnull
    | bool b => rfl
    | num q => rfl
    | str s => rfl
    | obj f => rfl
  · intro hnotnull res h
    cases v with
    | arr rows =>
        simp only [normalizeKnownGrid] at h
        by_cases hlen : rows.length = size
        · rw [if_pos hlen] at h
          exact ⟨rows, rfl, hlen, normalizeRows_ok_shape size rows 0 res h⟩
        · rw [if_neg hlen] at h
          exact Except.noConfusion h
    | null => exact absurd rfl hnotnull
    | bool b => exact Except.noConfusion h
    | num q => exact Except.noConfusion h
    | str s => exact Except.noConfusion h
    | obj f => exact Except.noConfusion h

/-- C8 (counterexample): an import without any `known_grid`/`grid` field
is accepted and a default all-null 3×3 grid is silently substituted, so a
missing grid does not fail with a shape error. -/
theorem missing_knownGrid_substitutes_default :
    parsePuzzleJson (Json.obj [("size", Json.num 3), ("target", Json.num 15)])
      = Except.ok ⟨3, 15, "unbounded", createGrid 3 none⟩ ∧
    (rawGridField [("size", Json.num 3), ("target", Json.num 15)]).isNone = true := by
  refine ⟨by decide, by decide⟩

/-- Witness for `knownGrid_shape_check`: a string in place of the grid is
rejected with the 3×3 shape error. -/
theorem knownGrid_shape_check_witness :
    normalizeKnownGrid (some (Json.str "nope")) 3 = Except.error (shapeErrMsg 3) :=
  (knownGrid_shape_check 3 (Json.str "nope")).2.2.1
    (fun h => Json.noConfusion h)
    (by rintro ⟨rows, h, -⟩; exact Json.noConfusion h)

/-! ## C9: clear versus resize to the current size -/

/-- C9 (amended): `handleClear` and `handleSizeChange` at the current size
produce the same fresh empty grid, all-false mask, and identically reset
count-mode fields; but `handleClear` additionally resets the game mode to
`"unbounded"` while keeping the target, whereas `handleSizeChange` keeps
the game mode while resetting the target to the default for the size — so
they are not the same operation. -/
theorem clear_matches_resize_except_mode_target (s : AppState) :
    (handleClear s).size = (handleSizeChange s s.size).size ∧
    (handleClear s).gridInput = (handleSizeChange s s.size).gridInput ∧
    (handleClear s).userProvided = (handleSizeChange s s.size).userProvided ∧
    (handleClear s).gridInput = createGrid s.size "" ∧
    (handleClear s).userProvided = createGrid s.size false ∧
    (handleClear s).countInfo = none ∧ (handleSizeChange s s.size).countInfo = none ∧
    (handleClear s).runToCompletion = false ∧
    (handleSizeChange s s.size).runToCompletion = false ∧
    (handleClear s).useMultiprocessing = false ∧
    (handleSizeChange s s.size).useMultiprocessing = false ∧
    (handleClear s).workerCount = "" ∧ (handleSizeChange s s.size).workerCount = "" ∧
    (handleClear s).countMaxSeconds = (handleSizeChange s s.size).countMaxSeconds ∧
    (handleClear s).gameMode = "unbounded" ∧
    (handleSizeChange s s.size).gameMode = s.gameMode ∧
    (handleClear s).target = s.target ∧
    (handleSizeChange s s.size).target = Json.num (defaultTargetForSize s.size) :=
  ⟨rfl, rfl, rfl, rfl, rfl, rfl, rfl, rfl, rfl, rfl, rfl, rfl, rfl, rfl, rfl, rfl, rfl, rfl⟩

/-- C9 (counterexample): from a state with game mode
`bounded_by_size_squared` and target 20, `clear()` and
`resize(currentSize)` produce different states: clear resets the game mode
but keeps the target, resize keeps the game mode but resets the target. -/
theorem clear_differs_from_resize :
    (handleClear (AppState.mk 3 (Json.num 20) (createGrid 3 "") (createGrid 3 false)
        "bounded_by_size_squared" none false (Json.num 30) false "")).gameMode
      = "unbounded" ∧
    (handleSizeChange (AppState.mk 3 (Json.num 20) (createGrid 3 "") (createGrid 3 false)
        "bounded_by_size_squared" none false (Json.num 30) false "") 3).gameMode
      = "bounded_by_size_squared" ∧
    (handleClear (AppState.mk 3 (Json.num 20) (createGrid 3 "") (createGrid 3 false)
        "bounded_by_size_squared" none false (Json.num 30) false "")).target
      = Json.num 20 ∧
    (handleSizeChange (AppState.mk 3 (Json.num 20) (createGrid 3 "") (createGrid 3 false)
        "bounded_by_size_squared" none false (Json.num 30) false "") 3).target
      = Json.num 15 ∧
    handleClear (AppState.mk 3 (Json.num 20) (createGrid 3 "") (createGrid 3 false)
        "bounded_by_size_squared" none false (Json.num 30) false "")
      ≠ handleSizeChange (AppState.mk 3 (Json.num 20) (createGrid 3 "") (createGrid 3 false)
        "bounded_by_size_squared" none false (Json.num 30) false "") 3 := by
  refine ⟨rfl, rfl, rfl, by norm_num [handleSizeChange, defaultTargetForSize], ?_⟩
  intro h
  have hg := congrArg AppState.gameMode h
  simp [handleClear, handleSizeChange] at hg

/-! ## C10: known grids sent by the count and solve requests -/

/-- C10: the known grid sent when starting a counting job
(`buildKnownGrid(true)`) keeps exactly the cells marked user-provided,
nulling every other cell even when its text parses; the known grid sent by
a solve request (`buildKnownGrid()`) keeps every cell whose text parses as
an integer `≥ 1`, regardless of the user-provided mask. -/
theorem request_knownGrid_masks (s : AppState)
    (kgCount kgSolve : List (List (Option Int))) (r c : Nat)
    (hc : countRequestKnownGrid s = Except.ok kgCount)
    (hs : solveRequestKnownGrid s = Except.ok kgSolve) :
    cellAt kgCount r c =
      (cellAt s.gridInput r c).map
        (fun cell => if maskAt s.userProvided r c then parseCellValue cell else none) ∧
    cellAt kgSolve r c = (cellAt s.gridInput r c).map parseCellValue := by
  rw [countRequestKnownGrid, buildKnownGrid] at hc
  rw [solveRequestKnownGrid, buildKnownGrid] at hs
  split at hc
  · exact Except.noConfusion hc
  · split at hs
    · exact Except.noConfusion hs
    · have hkc : kgCount = knownGridCells s.gridInput s.userProvided true := by
        injection hc.symm
      have hks : kgSolve = knownGridCells s.gridInput s.userProvided false := by
        injection hs.symm
      subst hkc hks
      constructor
      · rw [cellAt_knownGridCells]
        cases hcell : cellAt s.gridInput r c with
        | none => simp
        | some cell =>
            by_cases hm : maskAt s.userProvided r c <;> simp [hm]
      · rw [cellAt_knownGridCells]
        cases hcell : cellAt s.gridInput r c with
        | none => simp
        | some cell => simp

/-- Witness for `request_knownGrid_masks`: in a 2×2 grid where only cell
`(0,0)` is user-provided, the count request nulls the parseable
solver-filled cell `(1,1)` while the solve request keeps it. -/
theorem request_knownGrid_masks_witness :
    cellAt [[some (3 : Int), none], [none, none]] 1 1 =
      (cellAt [["3", ""], ["", "7"]] 1 1).map
        (fun cell => if maskAt [[true, false], [false, false]] 1 1
          then parseCellValue cell else none) ∧
    cellAt [[some (3 : Int), none], [none, some 7]] 1 1 =
      (cellAt [["3", ""], ["", "7"]] 1 1).map parseCellValue :=
  request_knownGrid_masks
    (AppState.mk 2 (Json.num 5) [["3", ""], ["", "7"]] [[true, false], [false, false]]
      "unbounded" none false (Json.num 30) false "")
    [[some 3, none], [none, none]] [[some 3, none], [none, some 7]] 1 1
    (by decide) (by decide)

end MagicSquare
